import Mathlib

/-!
Verification of the tg_pay_gateway_bot update-dispatch and identity-bootstrap
subsystem, shallowly embedded in Lean 4.

Modelling conventions
- `time.Time` values are embedded as `Nat` milliseconds-since-epoch; `0` is
  Go's zero time (`IsZero`).  `time.Now().UTC()` becomes an explicit `now`
  parameter threaded through each operation.
- A Mongo collection is a `List` of documents.  A BSON document whose field is
  absent is represented with the Go zero value of that field (which is what
  decoding a missing BSON key into a Go struct produces).
- `UpdateOne`/`UpdateMany` with `$set` / `$setOnInsert` are embedded as the
  corresponding pure list transformations, returning a `MongoUpdateResult`
  mirroring `mongo.UpdateResult`'s matched/modified/upserted counts.
- Fallible Go operations returning `(T, error)` become `Except String T`.
  The `ctx == nil` programmer-error guard has no shallow counterpart (contexts
  are not data here); the id guards are kept verbatim.
-/

/-- Milliseconds-since-epoch embedding of Go `time.Time`; `0` is the zero time. -/
abbrev GoTime := Nat

/-- `domain.RoleOwner`. -/
def RoleOwner : String := "owner"

/-- `domain.RoleAdmin`. -/
def RoleAdmin : String := "admin"

/-- `domain.RoleUser`. -/
def RoleUser : String := "user"

/-- `domain.RolePriority`: owner=3, admin=2, user=1, anything else 0. -/
def RolePriority (role : String) : Nat :=
  if role = RoleOwner then 3
  else if role = RoleAdmin then 2
  else if role = RoleUser then 1
  else 0

/-- `domain.RolePriorityOwner`. -/
def RolePriorityOwner : Nat := 3

/-- A document of the `users` collection (fields of `domain.User`; an absent
BSON field is the Go zero value). -/
structure UserDoc where
  user_id : Int
  role : String
  created_at : GoTime
  updated_at : GoTime
  last_seen_at : GoTime
deriving Repr, DecidableEq

/-- Mirror of `mongo.UpdateResult` (the counts the registrars read). -/
structure MongoUpdateResult where
  matchedCount : Nat
  modifiedCount : Nat
  upsertedCount : Nat
deriving Repr, DecidableEq

/-! ## Owner bootstrapper (`internal/feature/owner/registrar.go`) -/

/-- The `UpdateMany` of `EnsureOwner` step 1: on every document matching
`{role: "owner", user_id: {$ne: ownerID}}` apply
`$set {role: "admin", updated_at: now}`. -/
def demoteStaleOwners (ownerID : Int) (now : GoTime) (docs : List UserDoc) :
    List UserDoc :=
  docs.map fun d =>
    if d.role = RoleOwner ∧ d.user_id ≠ ownerID then
      { d with role := RoleAdmin, updated_at := now }
    else d

/-- The `$set` branch of `EnsureOwner` step 2 applied to a matched document:
`$set {user_id: ownerID, role: "owner", updated_at: now}`. -/
def applyOwnerSet (ownerID : Int) (now : GoTime) (d : UserDoc) : UserDoc :=
  { d with user_id := ownerID, role := RoleOwner, updated_at := now }

/-- The document inserted by `EnsureOwner` step 2 when no document matches:
the filter equality plus `$set` plus `$setOnInsert {created_at: now}`
(`last_seen_at` is absent, i.e. the zero time). -/
def ownerInsertDoc (ownerID : Int) (now : GoTime) : UserDoc :=
  { user_id := ownerID, role := RoleOwner, created_at := now,
    updated_at := now, last_seen_at := 0 }

/-- The `UpdateOne ... SetUpsert(true)` of `EnsureOwner` step 2: update the
(unique-index) match on `user_id == ownerID`, or insert when there is none. -/
def upsertOwnerDoc (ownerID : Int) (now : GoTime) : List UserDoc → List UserDoc
  | [] => [ownerInsertDoc ownerID now]
  | d :: ds =>
    if d.user_id = ownerID then applyOwnerSet ownerID now d :: ds
    else d :: upsertOwnerDoc ownerID now ds

/-- `owner.Registrar.EnsureOwner`: reject a zero owner id, then demote stale
owners and upsert the configured owner (two steps, demote first). -/
def EnsureOwner (ownerID : Int) (now : GoTime) (docs : List UserDoc) :
    Except String (List UserDoc) :=
  if ownerID = 0 then .error "owner id is required"
  else .ok (upsertOwnerDoc ownerID now (demoteStaleOwners ownerID now docs))

/-! ## Go string primitives

Lean's built-in `String.trim`/`String.toLower` are byte-index based and do not
kernel-reduce, so the Go `strings` helpers used by the source are embedded as
the corresponding `List Char` computations on `String.data`. -/

/-- Go `strings.TrimSpace` (leading and trailing whitespace removed). -/
def goTrimSpace (s : String) : String :=
  ⟨((s.data.dropWhile Char.isWhitespace).reverse.dropWhile Char.isWhitespace).reverse⟩

/-- ASCII lowering of one character (the case Go's `strings.ToLower` applies
to the command tokens in play). -/
def goLowerChar (c : Char) : Char :=
  if 'A' ≤ c ∧ c ≤ 'Z' then Char.ofNat (c.toNat + 32) else c

/-- Go `strings.ToLower`. -/
def goToLower (s : String) : String := ⟨s.data.map goLowerChar⟩

/-- Go `strings.HasPrefix(s, pre)`. -/
def goHasPrefix (s pre : String) : Bool := pre.data.isPrefixOf s.data

/-- Go `strings.TrimPrefix(s, pre)`: drop `pre` when it is a prefix. -/
def goTrimPrefix (s pre : String) : String :=
  if goHasPrefix s pre then ⟨s.data.drop pre.data.length⟩ else s

/-- `if idx := strings.Index(s, c); idx >= 0 { s = s[:idx] }`: the prefix of
`s` before the first occurrence of `c`. -/
def goCutAt (c : Char) (s : String) : String := ⟨s.data.takeWhile (fun x => x ≠ c)⟩

/-- Go `strings.Contains(s, pat)` as a proposition: `pat` occurs contiguously
inside `s`. -/
def containsSubstr (s pat : String) : Prop := List.IsInfix pat.data s.data

/-! ## User registration upserter (`internal/feature/user`) -/

/-- The `$set` branch of `EnsureUser` applied to a matched document:
`$set {updated_at: now, last_seen_at: now}`. -/
def applyUserSeen (now : GoTime) (d : UserDoc) : UserDoc :=
  { d with updated_at := now, last_seen_at := now }

/-- The document inserted by `EnsureUser` when nothing matches the filter:
`$setOnInsert {user_id, role: "user", created_at: now}` plus the `$set`
fields. -/
def userInsertDoc (userID : Int) (now : GoTime) : UserDoc :=
  { user_id := userID, role := RoleUser, created_at := now,
    updated_at := now, last_seen_at := now }

/-- `UpdateOne` with upsert on `user_id == userID` over the users collection,
returning the driver counts (matched/modified/upserted). -/
def userUpsert (userID : Int) (now : GoTime) :
    List UserDoc → MongoUpdateResult × List UserDoc
  | [] => (⟨0, 0, 1⟩, [userInsertDoc userID now])
  | d :: ds =>
    if d.user_id = userID then (⟨1, 1, 0⟩, applyUserSeen now d :: ds)
    else ((userUpsert userID now ds).1, d :: (userUpsert userID now ds).2)

/-- `user.Registrar.EnsureUser`: reject a zero user id, run the single atomic
upsert, and report `created = (UpsertedCount > 0)`. -/
def EnsureUser (userID : Int) (now : GoTime) (docs : List UserDoc) :
    Except String (Bool × List UserDoc) :=
  if userID = 0 then .error "user id is required"
  else
    .ok (decide ((userUpsert userID now docs).1.upsertedCount > 0),
      (userUpsert userID now docs).2)

/-- The unique-index lookup: first users document with `user_id == userID`. -/
def findUser (userID : Int) (docs : List UserDoc) : Option UserDoc :=
  docs.find? (fun d => d.user_id == userID)

/-! ## Group registration upserter (`internal/feature/group/registrar.go`) -/

/-- A document of the `groups` collection (fields of `domain.Group`; an absent
BSON field is the Go zero value). -/
structure GroupDoc where
  chat_id : Int
  title : String
  joined_at : GoTime
  last_seen_at : GoTime
deriving Repr, DecidableEq

/-- The `$set` branch of `EnsureGroup` applied to a matched document:
`last_seen_at` always, `title` only when the trimmed title is non-empty. -/
def applyGroupSet (updateTitle : String) (now : GoTime) (d : GroupDoc) : GroupDoc :=
  if updateTitle = "" then { d with last_seen_at := now }
  else { d with title := updateTitle, last_seen_at := now }

/-- The document inserted by `EnsureGroup` when nothing matches:
`$setOnInsert {chat_id, joined_at: now}` plus the `$set` fields (an absent
`title` decodes as `""`, which coincides with an empty `updateTitle`). -/
def groupInsertDoc (chatID : Int) (updateTitle : String) (now : GoTime) : GroupDoc :=
  { chat_id := chatID, title := updateTitle, joined_at := now, last_seen_at := now }

/-- `UpdateOne` with upsert on `chat_id == chatID` over the groups collection. -/
def groupUpsert (chatID : Int) (updateTitle : String) (now : GoTime) :
    List GroupDoc → MongoUpdateResult × List GroupDoc
  | [] => (⟨0, 0, 1⟩, [groupInsertDoc chatID updateTitle now])
  | d :: ds =>
    if d.chat_id = chatID then (⟨1, 1, 0⟩, applyGroupSet updateTitle now d :: ds)
    else ((groupUpsert chatID updateTitle now ds).1,
      d :: (groupUpsert chatID updateTitle now ds).2)

/-- `group.Registrar.EnsureGroup`: reject a zero chat id, trim the title, run
the single atomic upsert, report `created = (UpsertedCount > 0)`. -/
def EnsureGroup (chatID : Int) (title : String) (now : GoTime) (docs : List GroupDoc) :
    Except String (Bool × List GroupDoc) :=
  if chatID = 0 then .error "chat id is required"
  else
    .ok (decide ((groupUpsert chatID (goTrimSpace title) now docs).1.upsertedCount > 0),
      (groupUpsert chatID (goTrimSpace title) now docs).2)

/-- First groups document with `chat_id == chatID`. -/
def findGroup (chatID : Int) (docs : List GroupDoc) : Option GroupDoc :=
  docs.find? (fun d => d.chat_id == chatID)

/-! ## Identity repository (`internal/domain`) -/

/-- `domain.User` (Go zero values: `0` ids/times, `""` role). -/
structure DomainUser where
  userID : Int
  role : String
  createdAt : GoTime
  updatedAt : GoTime
  lastSeenAt : GoTime
deriving Repr, DecidableEq

/-- `domain.UserRepository.Create`, the field-population part (the `InsertOne`
stores the populated document verbatim): reject a zero `user_id`, default the
role, default zero `last_seen_at`/`created_at` to `now`, and assign
`updated_at = now`. -/
def createUser (now : GoTime) (user : DomainUser) : Except String DomainUser :=
  if user.userID = 0 then .error "user_id is required"
  else
    .ok { user with
      role := if user.role = "" then RoleUser else user.role,
      lastSeenAt := if user.lastSeenAt = 0 then now else user.lastSeenAt,
      createdAt := if user.createdAt = 0 then now else user.createdAt,
      updatedAt := now }

/-! ## Telegram update model (`internal/telegram`)

The slice of `github.com/go-telegram/bot/models` the dispatcher reads: nil
pointers become `Option`, struct fields keep their Go meaning. -/

/-- `models.User` (only `ID` is read). -/
structure TgUser where
  id : Int
deriving Repr, DecidableEq

/-- `models.Chat` (the fields the dispatcher reads). -/
structure TgChat where
  id : Int
  type : String
  title : String
deriving Repr, DecidableEq

/-- `models.Message` (the fields the dispatcher reads; `From` may be nil). -/
structure TgMessage where
  From : Option TgUser
  chat : TgChat
  text : String
deriving Repr, DecidableEq

/-- `models.InaccessibleMessage` (only the chat is read). -/
structure TgInaccessibleMessage where
  chat : TgChat
deriving Repr, DecidableEq

/-- The `Type` tag of `models.MaybeInaccessibleMessage`. -/
inductive MIMType where
  | message
  | inaccessibleMessage
  | other
deriving Repr, DecidableEq

/-- `models.MaybeInaccessibleMessage`. -/
structure MaybeInaccessibleMessage where
  type : MIMType
  message : Option TgMessage
  inaccessibleMessage : Option TgInaccessibleMessage
deriving Repr, DecidableEq

/-- `models.CallbackQuery` (`From` is a value, not a pointer, in the Go model). -/
structure TgCallbackQuery where
  From : TgUser
  message : MaybeInaccessibleMessage
  data : String
deriving Repr, DecidableEq

/-- `models.ChatMemberUpdated` (the fields the dispatcher reads). -/
structure TgChatMemberUpdated where
  From : TgUser
  chat : TgChat
deriving Repr, DecidableEq

/-- `models.Update`: the five event-shape pointers the bot subscribes to. -/
structure TgUpdate where
  message : Option TgMessage
  editedMessage : Option TgMessage
  callbackQuery : Option TgCallbackQuery
  myChatMember : Option TgChatMemberUpdated
  chatMember : Option TgChatMemberUpdated
deriving Repr, DecidableEq

/-- `telegram.updateMeta`. -/
structure UpdateMeta where
  userID : Int
  chatID : Int
  text : String
  updateType : String
  chatType : String
  chatTitle : String
deriving Repr, DecidableEq

/-- `telegram.userID`: nil user maps to id 0. -/
def userIDOf : Option TgUser → Int
  | none => 0
  | some u => u.id

/-- `telegram.chatTitle`: trimmed chat title. -/
def chatTitleOf (c : TgChat) : String := goTrimSpace c.title

/-- `telegram.messageChatID`: chat id behind a maybe-inaccessible message. -/
def messageChatID (m : MaybeInaccessibleMessage) : Int :=
  match m.type with
  | .message => match m.message with
    | none => 0
    | some msg => msg.chat.id
  | .inaccessibleMessage => match m.inaccessibleMessage with
    | none => 0
    | some im => im.chat.id
  | .other => 0

/-- `telegram.messageChatType`. -/
def messageChatType (m : MaybeInaccessibleMessage) : String :=
  match m.type with
  | .message => match m.message with
    | none => ""
    | some msg => msg.chat.type
  | .inaccessibleMessage => match m.inaccessibleMessage with
    | none => ""
    | some im => im.chat.type
  | .other => ""

/-- `telegram.messageChatTitle`. -/
def messageChatTitle (m : MaybeInaccessibleMessage) : String :=
  match m.type with
  | .message => match m.message with
    | none => ""
    | some msg => chatTitleOf msg.chat
  | .inaccessibleMessage => match m.inaccessibleMessage with
    | none => ""
    | some im => chatTitleOf im.chat
  | .other => ""

/-- `telegram.extractUpdateMeta`: first populated shape wins, in the switch
order message, edited_message, callback_query, my_chat_member, chat_member;
otherwise the zero-valued "unknown" meta. -/
def extractUpdateMeta (u : TgUpdate) : UpdateMeta :=
  match u.message, u.editedMessage, u.callbackQuery, u.myChatMember, u.chatMember with
  | some m, _, _, _, _ =>
    { userID := userIDOf m.From, chatID := m.chat.id, text := goTrimSpace m.text,
      updateType := "message", chatType := m.chat.type, chatTitle := chatTitleOf m.chat }
  | none, some m, _, _, _ =>
    { userID := userIDOf m.From, chatID := m.chat.id, text := goTrimSpace m.text,
      updateType := "edited_message", chatType := m.chat.type, chatTitle := chatTitleOf m.chat }
  | none, none, some q, _, _ =>
    { userID := q.From.id, chatID := messageChatID q.message, text := goTrimSpace q.data,
      updateType := "callback_query", chatType := messageChatType q.message,
      chatTitle := messageChatTitle q.message }
  | none, none, none, some cm, _ =>
    { userID := cm.From.id, chatID := cm.chat.id, text := "",
      updateType := "my_chat_member", chatType := cm.chat.type,
      chatTitle := chatTitleOf cm.chat }
  | none, none, none, none, some cm =>
    { userID := cm.From.id, chatID := cm.chat.id, text := "",
      updateType := "chat_member", chatType := cm.chat.type,
      chatTitle := chatTitleOf cm.chat }
  | none, none, none, none, none =>
    { userID := 0, chatID := 0, text := "", updateType := "unknown",
      chatType := "", chatTitle := "" }

/-- The zero-valued meta of an unrecognized update. -/
def unknownMeta : UpdateMeta :=
  { userID := 0, chatID := 0, text := "", updateType := "unknown",
    chatType := "", chatTitle := "" }

/-- `telegram.normalizeChatType` (`models.ChatTypePrivate = "private"`,
`models.ChatTypeGroup = "group"`, `models.ChatTypeSupergroup = "supergroup"`). -/
def normalizeChatType (chatType : String) : String :=
  if chatType = "private" then "private"
  else if chatType = "group" ∨ chatType = "supergroup" then "group"
  else if chatType = "" then "unknown"
  else chatType

/-! ## Command routing (`internal/telegram`, `messageRouter`) -/

/-- `telegram.isCommand`. -/
def isCommand (text : String) : Bool := goHasPrefix (goTrimSpace text) "/"

/-- `telegram.commandName`: `clean := TrimSpace(TrimPrefix(text, "/"))`, empty
short-circuits, then truncate at the first space, then the first `@`, then
lowercase. -/
def commandName (text : String) : String :=
  if goTrimSpace (goTrimPrefix text "/") = "" then ""
  else goToLower (goCutAt '@' (goCutAt ' ' (goTrimSpace (goTrimPrefix text "/"))))

/-- Where `messageRouter.route` dispatches a message-bearing update. -/
inductive RouteTarget where
  | command (handlerName : String) (cmd : String)
  | unknownCommand (cmd : String)
  | generic
deriving Repr, DecidableEq

/-- The command table built by `newMessageRouter` (keys to handler names). -/
def commandHandlerName : String → Option String
  | "start" => some "command_start"
  | "ping" => some "command_ping"
  | "status" => some "command_status"
  | _ => none

/-- Dispatch of a resolved command token: registered handler, else the
unknown-command handler. -/
def routeToken (cmd : String) : RouteTarget :=
  match commandHandlerName cmd with
  | some h => .command h cmd
  | none => .unknownCommand cmd

/-- The dispatch decision of `messageRouter.route` as a function of
`meta.text`. -/
def routeDecision (text : String) : RouteTarget :=
  if isCommand text then routeToken (commandName text)
  else .generic

/-- Route of a raw message body: `extractUpdateMeta` stores the trimmed text
in `meta.text`, and `route` dispatches on `meta.text`. -/
def routeOfMessageText (raw : String) : RouteTarget := routeDecision (goTrimSpace raw)

/-- The command-token procedure exactly as the spec sentence states it
(spec-side definition, for comparison with `commandName`): from the trimmed
text, strip the leading slash, truncate at the first space, truncate at the
first `@`, lowercase. -/
def claimCommandToken (raw : String) : String :=
  goToLower (goCutAt '@' (goCutAt ' ' ⟨(goTrimSpace raw).data.drop 1⟩))

/-! ## Command handlers (`internal/telegram`) -/

/-- `config.DefaultAppEnv`. -/
def DefaultAppEnv : String := "production"

/-- Mongo status computed by `pingCommandHandler`: `none` = no checker wired,
`some false` = `Ping` failed, `some true` = `Ping` succeeded. -/
def pingMongoStatus : Option Bool → String
  | some true => "ok"
  | _ => "error"

/-- `telegram.pingMessage`; the uptime `time.Duration` is passed already
rendered (its formatting is Go-library behavior the claims do not touch). -/
def pingMessage (appEnv uptimeStr mongoStatus : String) : String :=
  "pong" ++ "\n" ++
  "env: " ++ (if goTrimSpace appEnv = "" then DefaultAppEnv else goTrimSpace appEnv) ++ "\n" ++
  "uptime: " ++ uptimeStr ++ "\n" ++
  "mongo: " ++ (if goTrimSpace mongoStatus = "" then "error" else goTrimSpace mongoStatus)

/-- `telegram.pingCommandHandler` reduced to its outbound sends: no reply
without a chat id or client handle, otherwise exactly one `pingMessage`
reply whatever the mongo check returned. -/
def pingHandler (u : TgUpdate) (hasClient : Bool) (mongoChecker : Option Bool)
    (appEnv uptimeStr : String) : List String :=
  if (extractUpdateMeta u).chatID = 0 then []
  else if hasClient = false then []
  else [pingMessage appEnv uptimeStr (pingMongoStatus mongoChecker)]

/-- Result of the `/status` user lookup: `none` when no user fetcher is wired,
`some none` when `GetByID` fails, `some (some u)` on success. -/
abbrev FetchResult := Option (Option DomainUser)

/-- The stored role as `statusCommandHandler` resolves it (empty when the
lookup is skipped, unavailable or failed). -/
def statusRole (userID : Int) (fetch : FetchResult) : String :=
  if userID = 0 then ""
  else match fetch with
    | some (some du) => goTrimSpace du.role
    | _ => ""

/-- The authorization decision of `statusCommandHandler`:
`userID == botOwnerID && RolePriority(role) >= RolePriorityOwner`, with the
lookup-skipped/failed paths left unauthorized. -/
def statusAuthorized (botOwnerID userID : Int) (fetch : FetchResult) : Bool :=
  if userID = 0 then false
  else match fetch with
    | some (some du) =>
      decide (userID = botOwnerID) &&
        decide (RolePriority (goTrimSpace du.role) ≥ RolePriorityOwner)
    | _ => false

/-- A `/status` count rendered for the reply: `strconv.FormatInt` on success,
the literal "error" otherwise. -/
def countField : Except String Int → String
  | .ok n => toString n
  | .error _ => "error"

/-- `telegram.statusMessage`. -/
def statusMessage (appEnv users groups : String) : String :=
  "bot_status: running" ++ "\n" ++
  "env: " ++ (if goTrimSpace appEnv = "" then DefaultAppEnv else goTrimSpace appEnv) ++ "\n" ++
  "connected_chats: " ++ (if goTrimSpace groups = "" then "error" else goTrimSpace groups) ++ "\n" ++
  "registered_users: " ++ (if goTrimSpace users = "" then "error" else goTrimSpace users)

/-- Effects of one `statusCommandHandler` invocation: the texts handed to
`sendMessage` and whether each count collaborator was invoked. -/
structure StatusEffects where
  sent : List String
  usersCounted : Bool
  groupsCounted : Bool
deriving Repr, DecidableEq

/-- `telegram.statusCommandHandler` reduced to its outbound effects: require a
chat id; deny (with the literal "permission denied") unless authorized; when
authorized query both counts iff a stats provider is wired and send the
`statusMessage` reply. -/
def statusHandler (botOwnerID : Int) (u : TgUpdate) (hasClient : Bool)
    (fetch : FetchResult) (hasStats : Bool)
    (usersCount groupsCount : Except String Int) (appEnv : String) : StatusEffects :=
  if (extractUpdateMeta u).chatID = 0 then ⟨[], false, false⟩
  else if statusAuthorized botOwnerID (extractUpdateMeta u).userID fetch = false then
    if hasClient = false then ⟨[], false, false⟩
    else ⟨["permission denied"], false, false⟩
  else if hasStats = false then
    if hasClient = false then ⟨[], false, false⟩
    else ⟨[statusMessage appEnv "error" "error"], false, false⟩
  else if hasClient = false then ⟨[], true, true⟩
  else ⟨[statusMessage appEnv (countField usersCount) (countField groupsCount)], true, true⟩

theorem demote_map_user_id (o : Int) (now : GoTime) (docs : List UserDoc) :
    (demoteStaleOwners o now docs).map (·.user_id) = docs.map (·.user_id) := by
  induction docs with
  | nil => rfl
  | cons d ds ih =>
    simp only [demoteStaleOwners, List.map_cons] at ih ⊢
    by_cases hd : d.role = RoleOwner ∧ d.user_id ≠ o
    · simp [hd, ih]
    · simp [hd, ih]

theorem demote_owner_id (o : Int) (now : GoTime) (docs : List UserDoc) :
    ∀ d' ∈ demoteStaleOwners o now docs, d'.role = RoleOwner → d'.user_id = o := by
  intro d' hmem hrole
  unfold demoteStaleOwners at hmem
  rw [List.mem_map] at hmem
  obtain ⟨d, hd, rfl⟩ := hmem
  by_cases hcond : d.role = RoleOwner ∧ d.user_id ≠ o
  · simp only [if_pos hcond] at hrole
    simp [RoleAdmin, RoleOwner] at hrole
  · simp only [if_neg hcond] at hrole ⊢
    push_neg at hcond
    exact hcond hrole

theorem demote_mem (o : Int) (now : GoTime) (docs : List UserDoc) :
    ∀ d ∈ docs, d.role = RoleOwner → d.user_id ≠ o →
      { d with role := RoleAdmin, updated_at := now } ∈ demoteStaleOwners o now docs := by
  intro d hd hrole hne
  unfold demoteStaleOwners
  rw [List.mem_map]
  exact ⟨d, hd, by simp [hrole, hne]⟩

theorem upsert_mem (o : Int) (now : GoTime) :
    ∀ (l : List UserDoc), (l.map (·.user_id)).Nodup →
      ∀ d' ∈ upsertOwnerDoc o now l,
        (d'.user_id = o ∧ d'.role = RoleOwner) ∨ (d' ∈ l ∧ d'.user_id ≠ o) := by
  intro l
  induction l with
  | nil =>
    intro _ d' hd'
    simp only [upsertOwnerDoc, List.mem_singleton] at hd'
    subst hd'
    exact Or.inl ⟨rfl, rfl⟩
  | cons d ds ih =>
    intro hnd d' hd'
    rw [List.map_cons, List.nodup_cons] at hnd
    obtain ⟨hdo, hnds⟩ := hnd
    unfold upsertOwnerDoc at hd'
    by_cases hid : d.user_id = o
    · rw [if_pos hid] at hd'
      rcases List.mem_cons.mp hd' with h1 | h2
      · subst h1
        exact Or.inl ⟨rfl, rfl⟩
      · refine Or.inr ⟨List.mem_cons_of_mem _ h2, fun heq => ?_⟩
        exact hdo (by rw [hid, ← heq]; exact List.mem_map_of_mem _ h2)
    · rw [if_neg hid] at hd'
      rcases List.mem_cons.mp hd' with h1 | h2
      · subst h1
        exact Or.inr ⟨List.mem_cons_self _ _, hid⟩
      · rcases ih hnds d' h2 with hl | ⟨hmem, hne⟩
        · exact Or.inl hl
        · exact Or.inr ⟨List.mem_cons_of_mem _ hmem, hne⟩

theorem upsert_pres (o : Int) (now : GoTime) :
    ∀ (l : List UserDoc), ∀ d' ∈ l, d'.user_id ≠ o → d' ∈ upsertOwnerDoc o now l := by
  intro l
  induction l with
  | nil => intro d' h; simp at h
  | cons d ds ih =>
    intro d' hd' hne
    unfold upsertOwnerDoc
    by_cases hid : d.user_id = o
    · rw [if_pos hid]
      rcases List.mem_cons.mp hd' with h1 | h2
      · subst h1; exact absurd hid hne
      · exact List.mem_cons_of_mem _ h2
    · rw [if_neg hid]
      rcases List.mem_cons.mp hd' with h1 | h2
      · subst h1; exact List.mem_cons_self _ _
      · exact List.mem_cons_of_mem _ (ih d' h2 hne)

theorem upsert_count (o : Int) (now : GoTime) :
    ∀ (l : List UserDoc), (l.map (·.user_id)).Nodup →
      ((upsertOwnerDoc o now l).filter (fun d => d.user_id == o)).length = 1 := by
  intro l
  induction l with
  | nil => intro _; simp [upsertOwnerDoc, ownerInsertDoc]
  | cons d ds ih =>
    intro hnd
    rw [List.map_cons, List.nodup_cons] at hnd
    obtain ⟨hdo, hnds⟩ := hnd
    unfold upsertOwnerDoc
    by_cases hid : d.user_id = o
    · rw [if_pos hid]
      rw [List.filter_cons]
      have hmatch : ((applyOwnerSet o now d).user_id == o) = true := by
        simp [applyOwnerSet]
      have hnone : ds.filter (fun x => x.user_id == o) = [] := by
        rw [List.filter_eq_nil_iff]
        intro x hx
        simp only [beq_iff_eq]
        intro hxo
        exact hdo (by rw [hid, ← hxo]; exact List.mem_map_of_mem _ hx)
      simp [hmatch, hnone]
    · rw [if_neg hid]
      rw [List.filter_cons]
      have hnm : ¬ ((d.user_id == o) = true) := by simp [hid]
      simp only [hnm, if_false]
      exact ih hnds

/-- C1: after a successful `EnsureOwner(ctx, o)` on a store whose user ids are
unique (the `users.user_id` unique index), exactly one record has role
"owner", that record has `user_id = o`, and every record that previously had
role "owner" with `user_id ≠ o` is present afterwards with role "admin". -/
theorem EnsureOwner_single_owner (ownerID : Int) (now : GoTime)
    (docs docs' : List UserDoc)
    (hnodup : (docs.map (·.user_id)).Nodup)
    (h : EnsureOwner ownerID now docs = .ok docs') :
    ((docs'.filter (fun d => d.role == RoleOwner)).length = 1) ∧
    (∀ d' ∈ docs', (d'.role = RoleOwner ↔ d'.user_id = ownerID)) ∧
    (∀ d ∈ docs, d.role = RoleOwner → d.user_id ≠ ownerID →
      { d with role := RoleAdmin, updated_at := now } ∈ docs') := by
  unfold EnsureOwner at h
  by_cases h0 : ownerID = 0
  · rw [if_pos h0] at h
    exact absurd h (by simp)
  · rw [if_neg h0, Except.ok.injEq] at h
    subst h
    have hnodup2 : ((demoteStaleOwners ownerID now docs).map (·.user_id)).Nodup := by
      rw [demote_map_user_id]; exact hnodup
    have hiff : ∀ d' ∈ upsertOwnerDoc ownerID now (demoteStaleOwners ownerID now docs),
        (d'.role = RoleOwner ↔ d'.user_id = ownerID) := by
      intro d' hd'
      rcases upsert_mem ownerID now _ hnodup2 d' hd' with ⟨hida, hra⟩ | ⟨hmem, hne⟩
      · exact ⟨fun _ => hida, fun _ => hra⟩
      · constructor
        · intro hrole
          exact absurd (demote_owner_id ownerID now docs d' hmem hrole) hne
        · intro hid
          exact absurd hid hne
    refine ⟨?_, hiff, ?_⟩
    · have hcongr : (upsertOwnerDoc ownerID now (demoteStaleOwners ownerID now docs)).filter
          (fun d => d.role == RoleOwner) =
        (upsertOwnerDoc ownerID now (demoteStaleOwners ownerID now docs)).filter
          (fun d => d.user_id == ownerID) := by
        apply List.filter_congr
        intro x hx
        have h := hiff x hx
        by_cases hr : x.role = RoleOwner
        · have hu : x.user_id = ownerID := h.mp hr
          simp [hr, hu]
        · have hu : x.user_id ≠ ownerID := fun hh => hr (h.mpr hh)
          simp [hr, hu]
      rw [hcongr]
      exact upsert_count ownerID now _ hnodup2
    · intro d hd hrole hne
      exact upsert_pres ownerID now _ _ (demote_mem ownerID now docs d hd hrole hne) hne

/-- C1 witness: starting from the store `[{id: 5, role: owner}]`,
`EnsureOwner 7` leaves exactly one owner (id 7) and user 5 as admin. -/
theorem EnsureOwner_single_owner_witness :
    EnsureOwner 7 9 [⟨5, RoleOwner, 1, 1, 1⟩] =
      .ok [⟨5, RoleAdmin, 1, 9, 1⟩, ⟨7, RoleOwner, 9, 9, 0⟩] ∧
    (([⟨5, RoleAdmin, 1, 9, 1⟩, ⟨7, RoleOwner, 9, 9, 0⟩] : List UserDoc).filter
        (fun d => d.role == RoleOwner)).length = 1 ∧
    (⟨5, RoleAdmin, 1, 9, 1⟩ : UserDoc) ∈
      ([⟨5, RoleAdmin, 1, 9, 1⟩, ⟨7, RoleOwner, 9, 9, 0⟩] : List UserDoc) := by
  refine ⟨rfl, ?_, ?_⟩
  · exact (EnsureOwner_single_owner 7 9 [⟨5, RoleOwner, 1, 1, 1⟩]
      [⟨5, RoleAdmin, 1, 9, 1⟩, ⟨7, RoleOwner, 9, 9, 0⟩] (by decide) rfl).1
  · exact (EnsureOwner_single_owner 7 9 [⟨5, RoleOwner, 1, 1, 1⟩]
      [⟨5, RoleAdmin, 1, 9, 1⟩, ⟨7, RoleOwner, 9, 9, 0⟩] (by decide) rfl).2.2
      ⟨5, RoleOwner, 1, 1, 1⟩ (List.mem_singleton.mpr rfl) rfl (by decide)

theorem userUpsert_absent (u : Int) (now : GoTime) :
    ∀ (docs : List UserDoc), (∀ d ∈ docs, d.user_id ≠ u) →
      userUpsert u now docs = (⟨0, 0, 1⟩, docs ++ [userInsertDoc u now]) := by
  intro docs
  induction docs with
  | nil => intro _; rfl
  | cons d ds ih =>
    intro habs
    have hne : d.user_id ≠ u := habs d (List.mem_cons_self _ _)
    unfold userUpsert
    rw [if_neg hne, ih (fun x hx => habs x (List.mem_cons_of_mem _ hx))]
    rfl

theorem userUpsert_present_last (u : Int) (now : GoTime) (d0 : UserDoc)
    (hd0 : d0.user_id = u) :
    ∀ (docs : List UserDoc), (∀ d ∈ docs, d.user_id ≠ u) →
      userUpsert u now (docs ++ [d0]) = (⟨1, 1, 0⟩, docs ++ [applyUserSeen now d0]) := by
  intro docs
  induction docs with
  | nil =>
    intro _
    show userUpsert u now [d0] = _
    unfold userUpsert
    rw [if_pos hd0]
    rfl
  | cons d ds ih =>
    intro habs
    have hne : d.user_id ≠ u := habs d (List.mem_cons_self _ _)
    show userUpsert u now (d :: (ds ++ [d0])) = _
    unfold userUpsert
    rw [if_neg hne, ih (fun x hx => habs x (List.mem_cons_of_mem _ hx))]
    rfl

theorem findUser_append (u : Int) (docs l : List UserDoc)
    (habs : ∀ d ∈ docs, d.user_id ≠ u) :
    findUser u (docs ++ l) = findUser u l := by
  induction docs with
  | nil => rfl
  | cons d ds ih =>
    have hne : d.user_id ≠ u := habs d (List.mem_cons_self _ _)
    unfold findUser at ih ⊢
    rw [List.cons_append, List.find?_cons_of_neg _ (by simp [hne])]
    exact ih (fun x hx => habs x (List.mem_cons_of_mem _ hx))

/-- C2: registering an unseen nonzero user id twice returns `created = true`
then `created = false` (read off the upserted count); `created_at` is the
same after both calls, and the second call sets `updated_at = last_seen_at`
to the (monotone wall-clock) second timestamp, at least the first call's
values. -/
theorem EnsureUser_idempotent (u : Int) (t1 t2 : GoTime) (docs : List UserDoc)
    (hu : u ≠ 0) (habs : ∀ d ∈ docs, d.user_id ≠ u) (ht : t1 ≤ t2) :
    EnsureUser u t1 docs = .ok (true, docs ++ [userInsertDoc u t1]) ∧
    EnsureUser u t2 (docs ++ [userInsertDoc u t1]) =
      .ok (false, docs ++ [applyUserSeen t2 (userInsertDoc u t1)]) ∧
    findUser u (docs ++ [userInsertDoc u t1]) = some (userInsertDoc u t1) ∧
    findUser u (docs ++ [applyUserSeen t2 (userInsertDoc u t1)]) =
      some (applyUserSeen t2 (userInsertDoc u t1)) ∧
    (applyUserSeen t2 (userInsertDoc u t1)).created_at = (userInsertDoc u t1).created_at ∧
    (applyUserSeen t2 (userInsertDoc u t1)).updated_at =
      (applyUserSeen t2 (userInsertDoc u t1)).last_seen_at ∧
    (userInsertDoc u t1).updated_at ≤ (applyUserSeen t2 (userInsertDoc u t1)).updated_at ∧
    (userInsertDoc u t1).last_seen_at ≤ (applyUserSeen t2 (userInsertDoc u t1)).last_seen_at := by
  refine ⟨?_, ?_, ?_, ?_, rfl, rfl, ht, ht⟩
  · unfold EnsureUser
    rw [if_neg hu, userUpsert_absent u t1 docs habs]
    rfl
  · unfold EnsureUser
    rw [if_neg hu, userUpsert_present_last u t2 (userInsertDoc u t1) rfl docs habs]
    rfl
  · rw [findUser_append u docs _ habs]
    unfold findUser
    rw [List.find?_cons_of_pos _ (by simp [userInsertDoc])]
  · rw [findUser_append u docs _ habs]
    unfold findUser
    rw [List.find?_cons_of_pos _ (by simp [applyUserSeen, userInsertDoc])]

/-- C2 witness: user 3 on an empty store at times 10 then 20. -/
theorem EnsureUser_idempotent_witness :
    EnsureUser 3 10 [] = .ok (true, [⟨3, RoleUser, 10, 10, 10⟩]) ∧
    EnsureUser 3 20 [⟨3, RoleUser, 10, 10, 10⟩] = .ok (false, [⟨3, RoleUser, 10, 20, 20⟩]) ∧
    findUser 3 [⟨3, RoleUser, 10, 20, 20⟩] = some ⟨3, RoleUser, 10, 20, 20⟩ := by
  obtain ⟨h1, h2, -, h4, -⟩ :=
    EnsureUser_idempotent 3 10 20 [] (by decide) (by simp) (by decide)
  exact ⟨h1, h2, h4⟩

theorem groupUpsert_found (c : Int) (ut : String) (now : GoTime) :
    ∀ (docs : List GroupDoc) (d : GroupDoc), findGroup c docs = some d →
      (groupUpsert c ut now docs).1 = ⟨1, 1, 0⟩ ∧
      findGroup c (groupUpsert c ut now docs).2 = some (applyGroupSet ut now d) := by
  intro docs
  induction docs with
  | nil => intro d h; simp [findGroup] at h
  | cons x xs ih =>
    intro d h
    by_cases hx : x.chat_id = c
    · have hd : d = x := by
        unfold findGroup at h
        rw [List.find?_cons_of_pos _ (by simp [hx])] at h
        exact (Option.some.injEq _ _).mp h.symm
      subst hd
      unfold groupUpsert
      rw [if_pos hx]
      refine ⟨rfl, ?_⟩
      unfold findGroup
      rw [List.find?_cons_of_pos]
      have : (applyGroupSet ut now d).chat_id = c := by
        unfold applyGroupSet
        split <;> exact hx
      simp [this]
    · have hd' : findGroup c xs = some d := by
        unfold findGroup at h ⊢
        rwa [List.find?_cons_of_neg _ (by simp [hx])] at h
      obtain ⟨h1, h2⟩ := ih d hd'
      unfold groupUpsert
      rw [if_neg hx]
      refine ⟨h1, ?_⟩
      unfold findGroup at h2 ⊢
      rw [List.find?_cons_of_neg _ (by simp [hx])]
      exact h2

/-- C7: updating an existing group always refreshes `last_seen_at`; the title
is overwritten exactly when the trimmed input title is non-empty, and
`chat_id`/`joined_at` are never touched, so a blank title leaves the stored
title intact. -/
theorem EnsureGroup_title_policy (c : Int) (t : String) (now : GoTime)
    (docs : List GroupDoc) (d : GroupDoc)
    (hc : c ≠ 0) (hfind : findGroup c docs = some d) :
    EnsureGroup c t now docs = .ok (false, (groupUpsert c (goTrimSpace t) now docs).2) ∧
    findGroup c (groupUpsert c (goTrimSpace t) now docs).2 =
      some (applyGroupSet (goTrimSpace t) now d) ∧
    (applyGroupSet (goTrimSpace t) now d).chat_id = d.chat_id ∧
    (applyGroupSet (goTrimSpace t) now d).joined_at = d.joined_at ∧
    (applyGroupSet (goTrimSpace t) now d).last_seen_at = now ∧
    (goTrimSpace t = "" → (applyGroupSet (goTrimSpace t) now d).title = d.title) ∧
    (goTrimSpace t ≠ "" → (applyGroupSet (goTrimSpace t) now d).title = goTrimSpace t) := by
  obtain ⟨h1, h2⟩ := groupUpsert_found c (goTrimSpace t) now docs d hfind
  refine ⟨?_, h2, ?_, ?_, ?_, ?_, ?_⟩
  · unfold EnsureGroup
    rw [if_neg hc, h1]
    rfl
  · unfold applyGroupSet; split <;> rfl
  · unfold applyGroupSet; split <;> rfl
  · unfold applyGroupSet; split <;> rfl
  · intro hb; unfold applyGroupSet; rw [if_pos hb]
  · intro hb; unfold applyGroupSet; rw [if_neg hb]

/-- C7 witness: `EnsureGroup c "Real Name"` then `EnsureGroup c "   "` keeps
the stored title "Real Name" while advancing `last_seen_at`. -/
theorem EnsureGroup_title_policy_witness :
    EnsureGroup 5 "Real Name" 10 [] = .ok (true, [⟨5, "Real Name", 10, 10⟩]) ∧
    EnsureGroup 5 "   " 20 [⟨5, "Real Name", 10, 10⟩] =
      .ok (false, [⟨5, "Real Name", 10, 20⟩]) ∧
    findGroup 5 [⟨5, "Real Name", 10, 20⟩] = some ⟨5, "Real Name", 10, 20⟩ := by
  obtain ⟨h1, h2, -⟩ :=
    EnsureGroup_title_policy 5 "   " 20 [⟨5, "Real Name", 10, 10⟩]
      ⟨5, "Real Name", 10, 10⟩ (by decide) (by decide)
  exact ⟨rfl, h1, h2⟩

/-- C9 counterexample: `createUser` does NOT preserve a caller-supplied
non-zero `updated_at` — with `updated_at = 5` pre-populated and `now = 9`,
the stored document carries `updated_at = 9`, refuting the claim that a
caller-supplied non-zero `updated_at` is preserved. -/
theorem createUser_updatedAt_counterexample :
    createUser 9 ⟨1, RoleUser, 5, 5, 5⟩ = .ok ⟨1, RoleUser, 5, 9, 5⟩ ∧
    (⟨1, RoleUser, 5, 9, 5⟩ : DomainUser).updatedAt ≠
      (⟨1, RoleUser, 5, 5, 5⟩ : DomainUser).updatedAt := by
  exact ⟨rfl, by decide⟩

/-- C9 amended: `createUser` rejects a zero `user_id`, defaults an absent role
to "user", defaults zero `created_at`/`last_seen_at` to `now` while
preserving caller-supplied non-zero values of those two fields, and always
sets `updated_at = now` (a caller-supplied `updated_at` is overwritten). -/
theorem createUser_spec (now : GoTime) (u : DomainUser) :
    (u.userID = 0 → createUser now u = .error "user_id is required") ∧
    (∀ u', createUser now u = .ok u' →
      u'.userID = u.userID ∧
      (u.role = "" → u'.role = RoleUser) ∧
      (u.role ≠ "" → u'.role = u.role) ∧
      (u.createdAt = 0 → u'.createdAt = now) ∧
      (u.createdAt ≠ 0 → u'.createdAt = u.createdAt) ∧
      (u.lastSeenAt = 0 → u'.lastSeenAt = now) ∧
      (u.lastSeenAt ≠ 0 → u'.lastSeenAt = u.lastSeenAt) ∧
      u'.updatedAt = now) := by
  constructor
  · intro h
    unfold createUser
    rw [if_pos h]
  · intro u' h
    unfold createUser at h
    by_cases h0 : u.userID = 0
    · rw [if_pos h0] at h
      exact absurd h (by simp)
    · rw [if_neg h0, Except.ok.injEq] at h
      subst h
      refine ⟨rfl, ?_, ?_, ?_, ?_, ?_, ?_, rfl⟩ <;> intro hh <;> simp [hh]

/-- C9 witness: a zero id is rejected; an all-defaults user is stamped with
`now` everywhere; a pre-populated `created_at` survives. -/
theorem createUser_spec_witness :
    createUser 7 ⟨0, "", 0, 0, 0⟩ = .error "user_id is required" ∧
    createUser 7 ⟨2, "", 0, 3, 0⟩ = .ok ⟨2, RoleUser, 7, 7, 7⟩ ∧
    createUser 7 ⟨2, RoleAdmin, 4, 0, 6⟩ = .ok ⟨2, RoleAdmin, 4, 7, 6⟩ := by
  refine ⟨(createUser_spec 7 ⟨0, "", 0, 0, 0⟩).1 rfl, rfl, ?_⟩
  have h := (createUser_spec 7 ⟨2, RoleAdmin, 4, 0, 6⟩).2 ⟨2, RoleAdmin, 4, 7, 6⟩ rfl
  exact rfl

theorem dropWhile_dropWhile (p : Char → Bool) (l : List Char) :
    (l.dropWhile p).dropWhile p = l.dropWhile p := by
  induction l with
  | nil => rfl
  | cons a l ih =>
    by_cases h : p a
    · simp [List.dropWhile_cons, h, ih]
    · simp [List.dropWhile_cons, h]

theorem dropWhile_eq_self_of_prefix (p : Char → Bool) (x y : List Char)
    (hx : x.dropWhile p = x) (hy : y <+: x) : y.dropWhile p = y := by
  cases y with
  | nil => rfl
  | cons a y' =>
    obtain ⟨rest, hrest⟩ := hy
    by_cases h : p a
    · exfalso
      rw [← hrest, List.cons_append, List.dropWhile_cons, if_pos h] at hx
      have hlen := congrArg List.length hx
      have hle : (List.dropWhile p (y' ++ rest)).length ≤ (y' ++ rest).length :=
        (List.dropWhile_suffix p).length_le
      simp only [List.length_cons] at hlen
      omega
    · rw [List.dropWhile_cons, if_neg h]

theorem goTrimSpace_eq_rdrop (s : String) :
    goTrimSpace s = ⟨(s.data.dropWhile Char.isWhitespace).rdropWhile Char.isWhitespace⟩ := rfl

theorem goTrimSpace_idem (s : String) : goTrimSpace (goTrimSpace s) = goTrimSpace s := by
  rw [goTrimSpace_eq_rdrop s, goTrimSpace_eq_rdrop]
  congr 1
  show ((List.rdropWhile Char.isWhitespace
      (s.data.dropWhile Char.isWhitespace)).dropWhile
        Char.isWhitespace).rdropWhile Char.isWhitespace =
    (s.data.dropWhile Char.isWhitespace).rdropWhile Char.isWhitespace
  have hB : (List.rdropWhile Char.isWhitespace
      (s.data.dropWhile Char.isWhitespace)).dropWhile Char.isWhitespace =
      List.rdropWhile Char.isWhitespace (s.data.dropWhile Char.isWhitespace) :=
    dropWhile_eq_self_of_prefix _ _ _ (List.dropWhile_idempotent _ _)
      (List.rdropWhile_prefix _ _)
  rw [hB]
  exact List.rdropWhile_idempotent _ _

/-- C4 counterexample: on the text "/ start" (trimmed text starts with "/"),
the code's `commandName` trims again after stripping the slash and routes to
the start handler, while the claim's token procedure (strip the slash,
truncate at the first space, at "@", lowercase) resolves the empty token,
which has no handler and routes to the unknown-command handler. -/
theorem commandRouting_counterexample :
    routeOfMessageText "/ start" = .command "command_start" "start" ∧
    claimCommandToken "/ start" = "" ∧
    routeToken (claimCommandToken "/ start") = .unknownCommand "" := by
  exact ⟨by decide, by decide, by decide⟩

/-- C4 amended: when the trimmed text begins with "/", the dispatcher routes
by the token obtained by stripping the leading slash from the trimmed text,
trimming the remainder, truncating at the first space, truncating at the
first "@", and lowercasing; non-command text routes to the generic handler;
"/Start@mybot extra args" reaches the start handler, "/bogus" the
unknown-command handler, "hello" the generic handler. -/
theorem commandRouting_spec (raw : String) :
    (isCommand raw = true →
      routeOfMessageText raw =
        routeToken (goToLower (goCutAt '@' (goCutAt ' '
          (goTrimSpace (goTrimPrefix (goTrimSpace raw) "/")))))) ∧
    (isCommand raw = false → routeOfMessageText raw = .generic) ∧
    routeOfMessageText "/Start@mybot extra args" = .command "command_start" "start" ∧
    routeOfMessageText "/bogus" = .unknownCommand "bogus" ∧
    routeOfMessageText "hello" = .generic := by
  refine ⟨?_, ?_, by decide, by decide, by decide⟩
  · intro hc
    have hc' : isCommand (goTrimSpace raw) = true := by
      unfold isCommand at hc ⊢
      rw [goTrimSpace_idem]
      exact hc
    unfold routeOfMessageText routeDecision
    rw [if_pos hc']
    congr 1
    unfold commandName
    by_cases hcl : goTrimSpace (goTrimPrefix (goTrimSpace raw) "/") = ""
    · rw [if_pos hcl, hcl]
      rfl
    · rw [if_neg hcl]
  · intro hc
    have hc' : isCommand (goTrimSpace raw) = false := by
      unfold isCommand at hc ⊢
      rw [goTrimSpace_idem]
      exact hc
    unfold routeOfMessageText routeDecision
    rw [if_neg (by simp [hc'])]

/-- C4 witness: the amended token pipeline applied to
"/Start@mybot extra args" resolves "start" and reaches the start handler. -/
theorem commandRouting_spec_witness :
    isCommand "/Start@mybot extra args" = true ∧
    routeOfMessageText "/Start@mybot extra args" =
      routeToken (goToLower (goCutAt '@' (goCutAt ' '
        (goTrimSpace (goTrimPrefix (goTrimSpace "/Start@mybot extra args") "/"))))) ∧
    routeToken (goToLower (goCutAt '@' (goCutAt ' '
      (goTrimSpace (goTrimPrefix (goTrimSpace "/Start@mybot extra args") "/"))))) =
      .command "command_start" "start" := by
  exact ⟨by decide, (commandRouting_spec "/Start@mybot extra args").1 (by decide), by decide⟩

/-- C5: every update classifies into exactly the six documented shapes — a
populated `message` yields "message", `edited_message` yields
"edited_message", `callback_query` yields "callback_query", `my_chat_member`
yields "my_chat_member", `chat_member` yields "chat_member" — and an update
with none of these populated yields "unknown" with all other metadata fields
zero/empty. -/
theorem extractUpdateMeta_classification (u : TgUpdate) :
    ((extractUpdateMeta u).updateType = "message" ∨
     (extractUpdateMeta u).updateType = "edited_message" ∨
     (extractUpdateMeta u).updateType = "callback_query" ∨
     (extractUpdateMeta u).updateType = "my_chat_member" ∨
     (extractUpdateMeta u).updateType = "chat_member" ∨
     (extractUpdateMeta u).updateType = "unknown") ∧
    (u.message.isSome → (extractUpdateMeta u).updateType = "message") ∧
    (u.message = none → u.editedMessage.isSome →
      (extractUpdateMeta u).updateType = "edited_message") ∧
    (u.message = none → u.editedMessage = none → u.callbackQuery.isSome →
      (extractUpdateMeta u).updateType = "callback_query") ∧
    (u.message = none → u.editedMessage = none → u.callbackQuery = none →
      u.myChatMember.isSome → (extractUpdateMeta u).updateType = "my_chat_member") ∧
    (u.message = none → u.editedMessage = none → u.callbackQuery = none →
      u.myChatMember = none → u.chatMember.isSome →
      (extractUpdateMeta u).updateType = "chat_member") ∧
    (u.message = none → u.editedMessage = none → u.callbackQuery = none →
      u.myChatMember = none → u.chatMember = none →
      extractUpdateMeta u = unknownMeta) := by
  obtain ⟨msg, em, cq, mcm, cm⟩ := u
  cases msg <;> cases em <;> cases cq <;> cases mcm <;> cases cm <;>
    simp [extractUpdateMeta, unknownMeta]

/-- C5 witness: the empty update is "unknown" with zero-valued metadata. -/
theorem extractUpdateMeta_classification_witness :
    extractUpdateMeta ⟨none, none, none, none, none⟩ = unknownMeta :=
  (extractUpdateMeta_classification ⟨none, none, none, none, none⟩).2.2.2.2.2.2
    rfl rfl rfl rfl rfl

/-- C6 counterexample: an unrecognized non-empty platform chat type is passed
through unchanged — `normalizeChatType "channel" = "channel"`, which is none
of "private"/"group"/"unknown", refuting the claim that every input string
normalizes into that three-value set. -/
theorem normalizeChatType_counterexample :
    normalizeChatType "channel" = "channel" ∧
    "channel" ≠ "private" ∧ "channel" ≠ "group" ∧ "channel" ≠ "unknown" := by
  exact ⟨rfl, by decide, by decide, by decide⟩

/-- C6 amended: the recognized variants normalize as documented ("private" to
"private", both "group" and "supergroup" to "group", the empty type to
"unknown"), and any other non-empty chat type is returned unchanged. -/
theorem normalizeChatType_spec (s : String) :
    normalizeChatType "private" = "private" ∧
    normalizeChatType "group" = "group" ∧
    normalizeChatType "supergroup" = "group" ∧
    normalizeChatType "" = "unknown" ∧
    (s ≠ "private" → s ≠ "group" → s ≠ "supergroup" → s ≠ "" →
      normalizeChatType s = s) := by
  refine ⟨rfl, rfl, rfl, rfl, ?_⟩
  intro h1 h2 h3 h4
  unfold normalizeChatType
  rw [if_neg h1, if_neg (not_or.mpr ⟨h2, h3⟩), if_neg h4]

/-- C6 witness: `normalizeChatType` passes "channel" through unchanged. -/
theorem normalizeChatType_spec_witness :
    normalizeChatType "channel" = "channel" :=
  (normalizeChatType_spec "channel").2.2.2.2 (by decide) (by decide) (by decide) (by decide)

/-- C10: classification follows the fixed precedence message, edited_message,
callback_query, my_chat_member, chat_member, and all extracted metadata comes
exclusively from the first populated shape (a populated `message` determines
the whole meta record whatever else is populated). -/
theorem extractUpdateMeta_precedence (u : TgUpdate) :
    (∀ m, u.message = some m → extractUpdateMeta u =
      { userID := userIDOf m.From, chatID := m.chat.id, text := goTrimSpace m.text,
        updateType := "message", chatType := m.chat.type,
        chatTitle := chatTitleOf m.chat }) ∧
    (u.message = none → ∀ m, u.editedMessage = some m → extractUpdateMeta u =
      { userID := userIDOf m.From, chatID := m.chat.id, text := goTrimSpace m.text,
        updateType := "edited_message", chatType := m.chat.type,
        chatTitle := chatTitleOf m.chat }) ∧
    (u.message = none → u.editedMessage = none → ∀ q, u.callbackQuery = some q →
      extractUpdateMeta u =
      { userID := q.From.id, chatID := messageChatID q.message,
        text := goTrimSpace q.data, updateType := "callback_query",
        chatType := messageChatType q.message,
        chatTitle := messageChatTitle q.message }) ∧
    (u.message = none → u.editedMessage = none → u.callbackQuery = none →
      ∀ cm, u.myChatMember = some cm → extractUpdateMeta u =
      { userID := cm.From.id, chatID := cm.chat.id, text := "",
        updateType := "my_chat_member", chatType := cm.chat.type,
        chatTitle := chatTitleOf cm.chat }) ∧
    (u.message = none → u.editedMessage = none → u.callbackQuery = none →
      u.myChatMember = none → ∀ cm, u.chatMember = some cm → extractUpdateMeta u =
      { userID := cm.From.id, chatID := cm.chat.id, text := "",
        updateType := "chat_member", chatType := cm.chat.type,
        chatTitle := chatTitleOf cm.chat }) := by
  obtain ⟨msg, em, cq, mcm, cm⟩ := u
  cases msg <;> cases em <;> cases cq <;> cases mcm <;> cases cm <;>
    simp [extractUpdateMeta]

/-- C10 witness: an update carrying both a message and a callback query is
classified "message" and all metadata comes from the message. -/
theorem extractUpdateMeta_precedence_witness :
    extractUpdateMeta
      ⟨some ⟨some ⟨11⟩, ⟨22, "private", " T "⟩, " hi "⟩, none,
        some ⟨⟨33⟩, ⟨.message, some ⟨some ⟨44⟩, ⟨55, "group", "G"⟩, "x"⟩, none⟩, "data"⟩,
        none, none⟩ =
      { userID := 11, chatID := 22, text := "hi", updateType := "message",
        chatType := "private", chatTitle := "T" } := by
  have h := (extractUpdateMeta_precedence
      ⟨some ⟨some ⟨11⟩, ⟨22, "private", " T "⟩, " hi "⟩, none,
        some ⟨⟨33⟩, ⟨.message, some ⟨some ⟨44⟩, ⟨55, "group", "G"⟩, "x"⟩, none⟩, "data"⟩,
        none, none⟩).1 ⟨some ⟨11⟩, ⟨22, "private", " T "⟩, " hi "⟩ rfl
  exact h.trans (by decide)

theorem containsSubstr_self (s : String) : containsSubstr s s :=
  List.infix_refl s.data

theorem containsSubstr_append_left (s t pat : String) (h : containsSubstr s pat) :
    containsSubstr (s ++ t) pat := by
  unfold containsSubstr at h ⊢
  rw [String.data_append]
  exact h.trans (List.prefix_append s.data t.data).isInfix

theorem containsSubstr_append_right (s t pat : String) (h : containsSubstr t pat) :
    containsSubstr (s ++ t) pat := by
  unfold containsSubstr at h ⊢
  rw [String.data_append]
  exact h.trans (List.suffix_append s.data t.data).isInfix

theorem pingMessage_contains_pong (env up m : String) :
    containsSubstr (pingMessage env up m) "pong" := by
  unfold pingMessage
  repeat apply containsSubstr_append_left
  exact containsSubstr_self "pong"

theorem pingMessage_contains_mongo (env up : String) (m : String)
    (hm : goTrimSpace m = m) (hne : m ≠ "") :
    containsSubstr (pingMessage env up m) ("mongo: " ++ m) := by
  unfold pingMessage
  rw [hm, if_neg hne, String.append_assoc]
  exact containsSubstr_append_right _ _ _ (containsSubstr_self _)

/-- C8: with a chat id and a client present, `/ping` always sends exactly one
reply; the reply contains "pong" in every case, contains "mongo: ok" when the
bounded-timeout store ping succeeded, and contains "mongo: error" when the
ping failed or no checker is wired — a failed live check degrades the text
but never suppresses the send. -/
theorem pingHandler_always_replies (u : TgUpdate) (mc : Option Bool) (env up : String)
    (hchat : (extractUpdateMeta u).chatID ≠ 0) :
    pingHandler u true mc env up = [pingMessage env up (pingMongoStatus mc)] ∧
    containsSubstr (pingMessage env up (pingMongoStatus mc)) "pong" ∧
    (mc = some true →
      containsSubstr (pingMessage env up (pingMongoStatus mc)) "mongo: ok") ∧
    (mc ≠ some true →
      containsSubstr (pingMessage env up (pingMongoStatus mc)) "mongo: error") := by
  refine ⟨?_, pingMessage_contains_pong env up _, ?_, ?_⟩
  · unfold pingHandler
    rw [if_neg hchat, if_neg (by decide : ¬(true = false))]
  · intro h
    subst h
    have := pingMessage_contains_mongo env up "ok" (by decide) (by decide)
    exact (by decide : ("mongo: " ++ "ok" : String) = "mongo: ok") ▸ this
  · intro h
    have hs : pingMongoStatus mc = "error" := by
      rcases mc with - | b
      · rfl
      · cases b
        · rfl
        · exact absurd rfl h
    rw [hs]
    have := pingMessage_contains_mongo env up "error" (by decide) (by decide)
    exact (by decide : ("mongo: " ++ "error" : String) = "mongo: error") ▸ this

/-- C8 witness: a `/ping` message update in chat 7 with a failing store ping
still yields exactly one reply, containing "pong" and "mongo: error". -/
theorem pingHandler_always_replies_witness :
    pingHandler ⟨some ⟨some ⟨1⟩, ⟨7, "private", ""⟩, "/ping"⟩, none, none, none, none⟩
        true (some false) "production" "5s" =
      [pingMessage "production" "5s" "error"] ∧
    containsSubstr (pingMessage "production" "5s" "error") "pong" ∧
    containsSubstr (pingMessage "production" "5s" "error") "mongo: error" := by
  obtain ⟨h1, h2, -, h4⟩ := pingHandler_always_replies
    ⟨some ⟨some ⟨1⟩, ⟨7, "private", ""⟩, "/ping"⟩, none, none, none, none⟩
    (some false) "production" "5s" (by decide)
  exact ⟨h1, h2, h4 (by decide)⟩

/-- C3: with a chat id and client present, a `/status` caller that is not the
configured owner, or whose stored role does not resolve to priority ≥ owner
(3), gets exactly the literal "permission denied" reply and neither count
collaborator is invoked; and authorization succeeds only when the caller id
equals the configured owner id and the stored role has priority ≥ owner. -/
theorem statusHandler_authorization (o : Int) (u : TgUpdate) (fetch : FetchResult)
    (hs : Bool) (uc gc : Except String Int) (env : String)
    (hchat : (extractUpdateMeta u).chatID ≠ 0)
    (hden : (extractUpdateMeta u).userID ≠ o ∨
      RolePriority (statusRole (extractUpdateMeta u).userID fetch) < RolePriorityOwner) :
    statusHandler o u true fetch hs uc gc env =
      ⟨["permission denied"], false, false⟩ ∧
    (∀ uid : Int, statusAuthorized o uid fetch = true →
      uid = o ∧ RolePriority (statusRole uid fetch) ≥ RolePriorityOwner) := by
  constructor
  · have hauth : statusAuthorized o (extractUpdateMeta u).userID fetch = false := by
      unfold statusAuthorized
      by_cases h0 : (extractUpdateMeta u).userID = 0
      · rw [if_pos h0]
      · rw [if_neg h0]
        rcases fetch with - | (- | du)
        · rfl
        · rfl
        · simp only [statusRole, if_neg h0] at hden
          rcases hden with h | h
          · simp [h]
          · have h2 : ¬ (RolePriority (goTrimSpace du.role) ≥ RolePriorityOwner) := by
              omega
            simp [h2]
    unfold statusHandler
    rw [if_neg hchat, if_pos hauth, if_neg (by decide : ¬(true = false))]
  · intro uid hA
    unfold statusAuthorized at hA
    by_cases h0 : uid = 0
    · rw [if_pos h0] at hA
      exact absurd hA (by decide)
    · rw [if_neg h0] at hA
      rcases fetch with - | (- | du)
      · exact Bool.noConfusion hA
      · exact Bool.noConfusion hA
      · rw [Bool.and_eq_true] at hA
        refine ⟨of_decide_eq_true hA.1, ?_⟩
        have := of_decide_eq_true hA.2
        simpa [statusRole, if_neg h0] using this

/-- C3 witness: `/status` from user 42 (stored role "owner"!) with configured
owner 99 yields exactly the "permission denied" reply and no count queries. -/
theorem statusHandler_authorization_witness :
    statusHandler 99 ⟨some ⟨some ⟨42⟩, ⟨7, "private", ""⟩, "/status"⟩, none, none, none, none⟩
        true (some (some ⟨42, RoleOwner, 0, 0, 0⟩)) true (.ok 5) (.ok 6) "production" =
      ⟨["permission denied"], false, false⟩ :=
  (statusHandler_authorization 99
    ⟨some ⟨some ⟨42⟩, ⟨7, "private", ""⟩, "/status"⟩, none, none, none, none⟩
    (some (some ⟨42, RoleOwner, 0, 0, 0⟩)) true (.ok 5) (.ok 6) "production"
    (by decide) (Or.inl (by decide))).1
